import Mathlib

/-!
Verification of the E5 embeddings HTTP server (e5-server.py).

The server is a thin Flask wrapper around a sentence-embedding model:
three handlers (`/embed`, `/batch`, `/health`) plus startup configuration.
We embed the handlers shallowly: the external model's `encode` function is
an abstract parameter (the handlers never inspect its output), JSON request
bodies become an explicit record of the fields the handlers read, and each
handler returns either an HTTP 400 error body or a 200 payload.
-/

namespace E5Server

/-- The JSON request body, restricted to the fields the handlers read:
`text` (read by `/embed`), `texts` (read by `/batch`) and `type` (read by
both).  `extra` counts any further keys the caller sent; the handlers never
read them, but their presence makes the Python dict truthy. -/
structure JsonObj where
  text : Option String
  type : Option String
  texts : Option (List String)
  extra : Nat
deriving DecidableEq, Repr

/-- Python `not data` on the parsed JSON dict: true exactly when the dict is
empty, i.e. none of the keys is present. -/
def JsonObj.falsy (d : JsonObj) : Bool :=
  d.text.isNone && d.type.isNone && d.texts.isNone && (d.extra == 0)

/-- The JSON error payload a handler returns on a failed precondition check:
Python builds it as a one-key object, so we keep just that key's value. -/
structure ErrBody where
  error : String
deriving DecidableEq, Repr

/-- A handler's HTTP response: either an explicit error status with a JSON
error body, or a success payload (Flask serves success responses with the
default status 200). -/
inductive HttpResult (A : Type) where
  | error (status : Nat) (body : ErrBody)
  | ok (body : A)
deriving DecidableEq, Repr

/-- The HTTP status of a response; Flask uses 200 for `jsonify` results
returned without an explicit status. -/
def HttpResult.status {A : Type} : HttpResult A → Nat
  | .error s _ => s
  | .ok _ => 200

/-- Python `text.startswith(pre)`: the characters of `pre` are an initial
segment of the characters of `text`. -/
def pyStartsWith (s pre : String) : Bool :=
  pre.data.isPrefixOf s.data

/-- The `/embed` handler (source lines 23-40).  `encode` abstracts
`model.encode` together with serialization of the resulting vector; the
handler hands it exactly one string.  `data` is `request.get_json()`:
`none` when no JSON body could be parsed. -/
def embed {E : Type} (encode : String → E) (data : Option JsonObj) : HttpResult E :=
  match data with
  | none => HttpResult.error 400 ⟨"Missing text field"⟩
  | some d =>
      if d.falsy then HttpResult.error 400 ⟨"Missing text field"⟩
      else
        match d.text with
        | none => HttpResult.error 400 ⟨"Missing text field"⟩
        | some text =>
            let pfx := d.type.getD "passage"
            let text := if !(pyStartsWith text "query:") && !(pyStartsWith text "passage:")
                        then pfx ++ ": " ++ text
                        else text
            HttpResult.ok (encode text)

/-- The prefixing rule of the `/embed` handler (source lines 34-36), as a
standalone function of the resolved type value `pfx` and the input text. -/
def embedPrefixRule (pfx text : String) : String :=
  if !(pyStartsWith text "query:") && !(pyStartsWith text "passage:")
  then pfx ++ ": " ++ text
  else text

/-- The accumulation loop of the `/batch` handler (source lines 61-66):
each element is prefixed unless it already carries an explicit prefix. -/
def prefixList (pfx : String) : List String → List String
  | [] => []
  | text :: rest =>
      (if !(pyStartsWith text "query:") && !(pyStartsWith text "passage:")
       then pfx ++ ": " ++ text
       else text) :: prefixList pfx rest

/-- The `/batch` handler (source lines 51-70).  `encode` abstracts the one
call `model.encode(prefixed_texts)` together with serialization. -/
def batch_embed {E : Type} (encode : List String → E) (data : Option JsonObj) : HttpResult E :=
  match data with
  | none => HttpResult.error 400 ⟨"Missing texts field"⟩
  | some d =>
      if d.falsy then HttpResult.error 400 ⟨"Missing texts field"⟩
      else
        match d.texts with
        | none => HttpResult.error 400 ⟨"Missing texts field"⟩
        | some texts =>
            let pfx := d.type.getD "passage"
            let prefixed_texts := prefixList pfx texts
            HttpResult.ok (encode prefixed_texts)

/-- The model identifier the server loads at startup (source line 20). -/
def modelName : String := "intfloat/multilingual-e5-large"

/-- The `/health` response body (source lines 42-49). -/
structure HealthBody where
  status : String
  model : String
  dimension : Nat
deriving DecidableEq, Repr

/-- The `/health` handler (source lines 42-49): `dim` is
`model.get_sentence_embedding_dimension()`, a fixed property of the loaded
model (1024 for multilingual-e5-large).  The handler reads no request
data. -/
def health (dim : Nat) : HttpResult HealthBody :=
  HttpResult.ok ⟨"ok", "intfloat/multilingual-e5-large", dim⟩

/-- Startup (source line 73): bind host from the environment, default
`127.0.0.1`.  `env` abstracts `os.environ.get`. -/
def startupHost (env : String → Option String) : String :=
  (env "E5_HOST").getD "127.0.0.1"

/-- Startup (source line 74): bind port from the environment, parsed by
Python `int(...)` (abstracted as `pyInt`), default 8765. -/
def startupPort (env : String → Option String) (pyInt : String → Int) : Int :=
  match env "E5_PORT" with
  | some s => pyInt s
  | none => 8765

/-- The pair `(host, port)` passed to `app.run` (source line 86). -/
def serverBind (env : String → Option String) (pyInt : String → Int) : String × Int :=
  (startupHost env, startupPort env pyInt)

/-! ### Helper lemmas -/

theorem isPrefixOf_append {α : Type} [BEq α] (l a t : List α)
    (h : l.isPrefixOf a = true) : l.isPrefixOf (a ++ t) = true := by
  induction l generalizing a with
  | nil => simp
  | cons x xs ih =>
    cases a with
    | nil => simp at h
    | cons y ys =>
      simp only [List.isPrefixOf_cons₂, Bool.and_eq_true, List.cons_append] at h ⊢
      exact ⟨h.1, ih ys h.2⟩

theorem pyStartsWith_append (a t s : String) (h : pyStartsWith a s = true) :
    pyStartsWith (a ++ t) s = true := by
  unfold pyStartsWith at h ⊢
  rw [String.data_append]
  exact isPrefixOf_append _ _ _ h

/-- A non-falsy body with `text` present drives `/embed` to the success
branch, sending the prefixing rule's output to the model. -/
theorem embed_ok {E : Type} (encode : String → E) (t : String) (ty : Option String)
    (ts : Option (List String)) (k : Nat) :
    embed encode (some ⟨some t, ty, ts, k⟩) =
      HttpResult.ok (encode (embedPrefixRule (ty.getD "passage") t)) := by
  simp [embed, JsonObj.falsy, embedPrefixRule]

/-- A non-falsy body with `texts` present drives `/batch` to the success
branch, sending the prefixed list to the model. -/
theorem batch_embed_ok {E : Type} (encode : List String → E) (ts : List String)
    (tx ty : Option String) (k : Nat) :
    batch_embed encode (some ⟨tx, ty, some ts, k⟩) =
      HttpResult.ok (encode (prefixList (ty.getD "passage") ts)) := by
  simp [batch_embed, JsonObj.falsy]

/-- The batch loop computes the element-wise map of the single-request
prefixing rule. -/
theorem prefixList_eq_map (pfx : String) (ts : List String) :
    prefixList pfx ts = ts.map (embedPrefixRule pfx) := by
  induction ts with
  | nil => rfl
  | cons t rest ih => simp [prefixList, embedPrefixRule, ih]

/-- A text that already carries an explicit prefix passes through the
prefixing rule unchanged, whatever the resolved type value is. -/
theorem embedPrefixRule_passthrough (pfx t : String)
    (h : pyStartsWith t "query:" = true ∨ pyStartsWith t "passage:" = true) :
    embedPrefixRule pfx t = t := by
  rcases h with h | h <;> simp [embedPrefixRule, h]

/-! ### Claims -/

/-- C1: for every `/embed` request whose `text` does not begin with
`query:` or `passage:`, the string passed to the model's encode function is
`"{type}: {original text}"`, where the type value defaults to `passage`
when the `type` field is absent. -/
theorem c1_embed_prefixes {E : Type} (encode : String → E) (d : JsonObj) (t : String)
    (ht : d.text = some t)
    (h1 : pyStartsWith t "query:" = false)
    (h2 : pyStartsWith t "passage:" = false) :
    embed encode (some d) = HttpResult.ok (encode ((d.type.getD "passage") ++ ": " ++ t)) := by
  obtain ⟨tx, ty, ts, k⟩ := d
  simp only at ht
  subst ht
  rw [embed_ok]
  simp [embedPrefixRule, h1, h2]

theorem c1_witness :
    embed (fun s => s) (some ⟨some "hello world", none, none, 0⟩)
      = HttpResult.ok "passage: hello world" := by
  have h := c1_embed_prefixes (fun s => s) ⟨some "hello world", none, none, 0⟩
    "hello world" rfl (by decide) (by decide)
  exact h.trans (by decide)

/-- C2: a text already starting with `query:` or `passage:` reaches the
model unchanged, in `/embed` and in any position of a `/batch` request,
regardless of the request's `type` field. -/
theorem c2_passthrough (t : String)
    (h : pyStartsWith t "query:" = true ∨ pyStartsWith t "passage:" = true) :
    (∀ pfx, embedPrefixRule pfx t = t) ∧
    (∀ (E : Type) (encode : String → E) ty ts k,
       embed encode (some ⟨some t, ty, ts, k⟩) = HttpResult.ok (encode t)) ∧
    (∀ (E : Type) (encode : List String → E) tx ty k pre post,
       batch_embed encode (some ⟨tx, ty, some (pre ++ t :: post), k⟩) =
         HttpResult.ok (encode
           (prefixList (ty.getD "passage") pre ++ t :: prefixList (ty.getD "passage") post))) := by
  have hrule : ∀ pfx, embedPrefixRule pfx t = t :=
    fun pfx => embedPrefixRule_passthrough pfx t h
  refine ⟨hrule, ?_, ?_⟩
  · intro E encode ty ts k
    rw [embed_ok, hrule]
  · intro E encode tx ty k pre post
    rw [batch_embed_ok]
    simp only [prefixList_eq_map, List.map_append, List.map_cons, hrule]

theorem c2_witness :
    embedPrefixRule "passage" "query: hi" = "query: hi" ∧
    embed (fun s => s) (some ⟨some "query: hi", some "passage", none, 0⟩)
      = HttpResult.ok "query: hi" ∧
    batch_embed (fun l => l) (some ⟨none, some "passage", some (["a"] ++ "query: hi" :: []), 0⟩)
      = HttpResult.ok ["passage: a", "query: hi"] := by
  have h := c2_passthrough "query: hi" (Or.inl (by decide))
  refine ⟨h.1 "passage", h.2.1 String (fun s => s) (some "passage") none 0, ?_⟩
  have h3 := h.2.2 (List String) (fun l => l) none (some "passage") 0 ["a"] []
  exact h3.trans (by decide)

/-- C3: a `/embed` request whose body lacks the `text` field (including the
empty body and an unparsable body) is answered with HTTP 400 and the body
`{error: "Missing text field"}`; the result is this fixed error for every
encode function, so the model is never invoked. -/
theorem c3_missing_text {E : Type} (encode : String → E) (d : JsonObj)
    (h : d.text = none) :
    embed encode (some d) = HttpResult.error 400 ⟨"Missing text field"⟩ ∧
    embed encode none = HttpResult.error 400 ⟨"Missing text field"⟩ ∧
    (embed encode (some d)).status = 400 := by
  have h1 : embed encode (some d) = HttpResult.error 400 ⟨"Missing text field"⟩ := by
    cases hf : d.falsy <;> simp [embed, h, hf]
  exact ⟨h1, rfl, by rw [h1]; rfl⟩

theorem c3_witness :
    embed (fun s => s) (some ⟨none, none, none, 0⟩)
      = HttpResult.error 400 ⟨"Missing text field"⟩ :=
  (c3_missing_text (fun s => s) ⟨none, none, none, 0⟩ rfl).1

/-- C4: the `/batch` prefixing loop equals the element-wise map of the
single-request prefixing rule: same length, order preserved, the i-th
output obtained from the i-th input, and the handler sends exactly that
mapped list to the model. -/
theorem c4_batch_refines_embed (pfx : String) (ts : List String) :
    prefixList pfx ts = ts.map (embedPrefixRule pfx) ∧
    (prefixList pfx ts).length = ts.length ∧
    (∀ i : Nat, (prefixList pfx ts)[i]? = (ts[i]?).map (embedPrefixRule pfx)) ∧
    (∀ (E : Type) (encode : List String → E) tx ty k,
       batch_embed encode (some ⟨tx, ty, some ts, k⟩) =
         HttpResult.ok (encode (ts.map (embedPrefixRule (ty.getD "passage"))))) := by
  refine ⟨prefixList_eq_map pfx ts, ?_, ?_, ?_⟩
  · rw [prefixList_eq_map]; simp
  · intro i; rw [prefixList_eq_map]; simp
  · intro E encode tx ty k; rw [batch_embed_ok, prefixList_eq_map]

/-- C5: a `/batch` request whose body lacks the `texts` field (including
the empty body and an unparsable body) is answered with HTTP 400 and the
body `{error: "Missing texts field"}`; the result is this fixed error for
every encode function, so the model is never invoked. -/
theorem c5_missing_texts {E : Type} (encode : List String → E) (d : JsonObj)
    (h : d.texts = none) :
    batch_embed encode (some d) = HttpResult.error 400 ⟨"Missing texts field"⟩ ∧
    batch_embed encode none = HttpResult.error 400 ⟨"Missing texts field"⟩ ∧
    (batch_embed encode (some d)).status = 400 := by
  have h1 : batch_embed encode (some d) = HttpResult.error 400 ⟨"Missing texts field"⟩ := by
    cases hf : d.falsy <;> simp [batch_embed, h, hf]
  exact ⟨h1, rfl, by rw [h1]; rfl⟩

theorem c5_witness :
    batch_embed (fun l => l) (some ⟨none, none, none, 0⟩)
      = HttpResult.error 400 ⟨"Missing texts field"⟩ :=
  (c5_missing_texts (fun l => l) ⟨none, none, none, 0⟩ rfl).1

/-- C6: `/health` always succeeds with HTTP 200 and the body
`{status: "ok", model: "intfloat/multilingual-e5-large", dimension: d}`,
where `d` is the loaded model's embedding dimensionality; the handler takes
no request data (its only argument is the model's fixed dimension). -/
theorem c6_health (dim : Nat) :
    (health dim).status = 200 ∧
    health dim = HttpResult.ok ⟨"ok", modelName, dim⟩ :=
  ⟨rfl, rfl⟩

/-- C7 counterexample: the claim says a request with an empty `text` is
treated as a client input error, but the code embeds it: `/embed` on
`{"text": ""}` returns HTTP 200 with the embedding of `"passage: "` — not
an error. -/
theorem c7_counterexample :
    embed (fun s => s) (some ⟨some "", none, none, 0⟩) = HttpResult.ok "passage: " ∧
    (embed (fun s => s) (some ⟨some "", none, none, 0⟩)).status = 200 := by
  constructor
  · rw [embed_ok]
    exact congrArg HttpResult.ok (by decide)
  · rw [embed_ok]
    rfl

/-- C7 amended: well-formedness of a single-embed request only requires
the `text` field to be present — the empty string is accepted.  `/embed`
answers with the 400 error exactly when `text` is absent; a present but
empty `text` is prefixed (to `"{type}: "`, default `"passage: "`) and
embedded with HTTP 200. -/
theorem c7_amended {E : Type} (encode : String → E) (d : JsonObj) :
    (embed encode (some d) = HttpResult.error 400 ⟨"Missing text field"⟩ ↔ d.text = none) ∧
    (∀ ty k, embed encode (some ⟨some "", ty, none, k⟩) =
        HttpResult.ok (encode ((ty.getD "passage") ++ ": "))) := by
  constructor
  · constructor
    · intro he
      cases ht : d.text with
      | none => rfl
      | some t =>
        obtain ⟨tx, ty, ts, k⟩ := d
        simp only at ht
        subst ht
        rw [embed_ok] at he
        exact absurd he (by simp)
    · intro ht
      cases hf : d.falsy <;> simp [embed, ht, hf]
  · intro ty k
    rw [embed_ok]
    have : embedPrefixRule (ty.getD "passage") "" = (ty.getD "passage") ++ ": " := by
      rw [embedPrefixRule, if_pos (by decide)]
      exact String.append_empty _
    rw [this]

/-- C8: the bind host comes from `E5_HOST` (default `127.0.0.1` when
unset), the bind port from `E5_PORT` parsed as an integer (default 8765
when unset), and the server is started on exactly that pair. -/
theorem c8_startup_config (env : String → Option String) (pyInt : String → Int) :
    ((env "E5_HOST" = none → (serverBind env pyInt).1 = "127.0.0.1") ∧
     (∀ h, env "E5_HOST" = some h → (serverBind env pyInt).1 = h)) ∧
    ((env "E5_PORT" = none → (serverBind env pyInt).2 = 8765) ∧
     (∀ p, env "E5_PORT" = some p → (serverBind env pyInt).2 = pyInt p)) := by
  refine ⟨⟨?_, ?_⟩, ⟨?_, ?_⟩⟩
  · intro h; simp [serverBind, startupHost, h]
  · intro v h; simp [serverBind, startupHost, h]
  · intro h; simp [serverBind, startupPort, h]
  · intro v h; simp [serverBind, startupPort, h]

theorem c8_witness :
    (serverBind (fun _ => none) (fun _ => 0)).1 = "127.0.0.1" ∧
    (serverBind (fun _ => none) (fun _ => 0)).2 = 8765 :=
  ⟨(c8_startup_config (fun _ => none) (fun _ => 0)).1.1 rfl,
   (c8_startup_config (fun _ => none) (fun _ => 0)).2.1 rfl⟩

/-- C9: the `type` field is never validated: any string `ty` placed there
is spliced verbatim in front of an unprefixed text, in `/embed` and in
`/batch`, and the request still succeeds with HTTP 200. -/
theorem c9_type_not_validated (ty t : String)
    (h1 : pyStartsWith t "query:" = false)
    (h2 : pyStartsWith t "passage:" = false) :
    (∀ (E : Type) (encode : String → E) ts k,
       embed encode (some ⟨some t, some ty, ts, k⟩) = HttpResult.ok (encode (ty ++ ": " ++ t)) ∧
       (embed encode (some ⟨some t, some ty, ts, k⟩)).status = 200) ∧
    (∀ (E : Type) (encode : List String → E) tx k,
       batch_embed encode (some ⟨tx, some ty, some [t], k⟩)
         = HttpResult.ok (encode [ty ++ ": " ++ t]) ∧
       (batch_embed encode (some ⟨tx, some ty, some [t], k⟩)).status = 200) := by
  have hrule : embedPrefixRule ((some ty).getD "passage") t = ty ++ ": " ++ t := by
    simp [embedPrefixRule, h1, h2]
  constructor
  · intro E encode ts k
    rw [embed_ok, hrule]
    exact ⟨rfl, rfl⟩
  · intro E encode tx k
    rw [batch_embed_ok, prefixList_eq_map, List.map_cons, List.map_nil, hrule]
    exact ⟨rfl, rfl⟩

theorem c9_witness :
    embed (fun s => s) (some ⟨some "bar", some "foo", none, 0⟩) = HttpResult.ok "foo: bar" ∧
    batch_embed (fun l => l) (some ⟨none, some "foo", some ["bar"], 0⟩)
      = HttpResult.ok ["foo: bar"] := by
  have h := c9_type_not_validated "foo" "bar" (by decide) (by decide)
  exact ⟨(h.1 String (fun s => s) none 0).1, (h.2 (List String) (fun l => l) none 0).1⟩

/-- C10 counterexample: the claim says idempotence fails for every type
outside {query, passage}, but the type `"query:x"` is outside that set and
the prefixing rule is still idempotent with it on the text `"a"`, because
its first application produces a string starting with `"query:"`. -/
theorem c10_counterexample :
    ("query:x" ≠ "query" ∧ "query:x" ≠ "passage") ∧
    embedPrefixRule "query:x" (embedPrefixRule "query:x" "a")
      = embedPrefixRule "query:x" "a" := by
  decide

/-- C10 amended: for type `query` or `passage` the prefixing rule is
idempotent on every text.  For a type outside that set idempotence can
fail — type `"foo"` applied twice to `"a"` prepends twice — but not for
every such type: `"query:x"` is outside the set and stays idempotent. -/
theorem c10_idempotent (pfx t : String) (h : pfx = "query" ∨ pfx = "passage") :
    embedPrefixRule pfx (embedPrefixRule pfx t) = embedPrefixRule pfx t ∧
    embedPrefixRule "foo" (embedPrefixRule "foo" "a") ≠ embedPrefixRule "foo" "a" ∧
    embedPrefixRule "query:x" (embedPrefixRule "query:x" "a")
      = embedPrefixRule "query:x" "a" := by
  refine ⟨?_, by decide, by decide⟩
  by_cases hq : (!(pyStartsWith t "query:") && !(pyStartsWith t "passage:")) = true
  · have h1 : embedPrefixRule pfx t = pfx ++ ": " ++ t := by
      rw [embedPrefixRule, if_pos hq]
    rw [h1]
    rcases h with h | h <;> subst h
    · exact embedPrefixRule_passthrough _ _
        (Or.inl (pyStartsWith_append ("query" ++ ": ") t "query:" (by decide)))
    · exact embedPrefixRule_passthrough _ _
        (Or.inr (pyStartsWith_append ("passage" ++ ": ") t "passage:" (by decide)))
  · have h1 : embedPrefixRule pfx t = t := by
      rw [embedPrefixRule, if_neg hq]
    rw [h1, h1]

theorem c10_witness :
    embedPrefixRule "query" (embedPrefixRule "query" "hello")
      = embedPrefixRule "query" "hello" :=
  (c10_idempotent "query" "hello" (Or.inl rfl)).1

end E5Server
